import Mathlib

/-!
# Verification of the parserhhub forwarding proxy

Shallow embedding of `src/proxy/proxy.go` (and the pieces of `src/main/main.go`
that the lifecycle claims mention).  Go strings are modelled as `List Char`
(the inputs of interest are ASCII, where Go's byte-wise operations and
per-`Char` operations coincide).  Fallible Go calls `(T, error)` are modelled
as `T × Option String` pairs, matching the Go calling convention.
-/

namespace Parserhhub

/-- Headers: `http.Header` is a map from key to list of values; modelled as an
association list. -/
abbrev Headers := List (List Char × List (List Char))

/-- Multi-valued form data: `url.Values`, also a key → list-of-values map. -/
abbrev Values := List (List Char × List (List Char))

/-! ## Go `strings` primitives used by `extractDest` -/

/-- Index of the first occurrence of `sub` in the scanned list, as in
`strings.Index` (which returns the byte index of the first occurrence, or is
used only through comparison with 0 here). Returns `none` when absent. -/
def firstOccur (sub : List Char) : List Char → Option Nat
  | [] => if sub = [] then some 0 else none
  | c :: rest =>
    if sub.isPrefixOf (c :: rest) then some 0
    else (firstOccur sub rest).map (· + 1)

/-- `strings.Index(s, sub)`: first occurrence index, `-1` when absent. -/
def goIndex (s sub : List Char) : Int :=
  match firstOccur sub s with
  | some n => (n : Int)
  | none => -1

/-- `strings.Replace(s, oldS, newS, 1)`: replace the first occurrence of
`oldS` (scanning left to right) by `newS`; when `oldS` is empty Go inserts
`newS` before the string. -/
def replaceFirst : List Char → List Char → List Char → List Char
  | [], oldS, newS => if oldS = [] then newS else []
  | c :: rest, oldS, newS =>
    if oldS.isPrefixOf (c :: rest) then newS ++ (c :: rest).drop oldS.length
    else c :: replaceFirst rest oldS newS

/-- The literal route marker `"/proxy/"`. -/
def proxyPre : List Char := "/proxy/".toList

/-- `extractDest` (proxy.go):
```
if strings.Index(path, "/proxy/") != 0 { return "", errors.New("unknown path") }
return strings.Replace(path, "/proxy/", "", 1), nil
```
Returns the `(string, error)` pair. -/
def extractDest (path : List Char) : List Char × Option String :=
  if goIndex path proxyPre ≠ 0 then ([], some "unknown path")
  else (replaceFirst path proxyPre [], none)

/-! ## Go `strings.Cut` / query parsing primitives (net/url) -/

/-- `strings.Cut(s, sep)` for a one-character separator: the part before the
first occurrence of `c` and the part after it; `(s, [])` when `c` is absent
(Go returns `(s, "", false)` and the callers here use only the two strings). -/
def cutChar (c : Char) : List Char → List Char × List Char
  | [] => ([], [])
  | x :: xs =>
    if x = c then ([], xs)
    else
      let p := cutChar c xs
      (x :: p.1, p.2)

/-- Splitting on every occurrence of `c`; iterating `strings.Cut` over the
rest, as `url.parseQuery`'s loop does with `"&"`, visits exactly these
segments in order. -/
def splitOnChar (c : Char) : List Char → List (List Char)
  | [] => [[]]
  | x :: xs =>
    let r := splitOnChar c xs
    if x = c then [] :: r
    else
      match r with
      | [] => [[x]]
      | seg :: rest => (x :: seg) :: rest

/-- Hex digit value, as in `net/url.unhex`. -/
def hexVal (c : Char) : Option Nat :=
  if '0' ≤ c ∧ c ≤ '9' then some (c.toNat - '0'.toNat)
  else if 'a' ≤ c ∧ c ≤ 'f' then some (c.toNat - 'a'.toNat + 10)
  else if 'A' ≤ c ∧ c ≤ 'F' then some (c.toNat - 'A'.toNat + 10)
  else none

/-- `url.QueryUnescape`: `%XX` decodes to the byte `XX`, `+` decodes to a
space, anything else passes through; a `%` not followed by two hex digits is
the "invalid URL escape" error (`none`). Bytes are identified with `Char`
codes, exact for the ASCII data the proxy's form bodies use. -/
def queryUnescape : List Char → Option (List Char)
  | [] => some []
  | '%' :: a :: b :: rest =>
    match hexVal a, hexVal b with
    | some ha, some hb => (queryUnescape rest).map (Char.ofNat (16 * ha + hb) :: ·)
    | _, _ => none
  | '%' :: _ => none
  | '+' :: rest => (queryUnescape rest).map (' ' :: ·)
  | c :: rest => (queryUnescape rest).map (c :: ·)

/-- `url.Values` insertion `m[key] = append(m[key], value)`. -/
def addValue (vs : Values) (k v : List Char) : Values :=
  match vs with
  | [] => [(k, [v])]
  | (k', l) :: rest => if k' = k then (k', l ++ [v]) :: rest else (k', l) :: addValue rest k v

/-- One iteration of `url.parseQuery`'s loop on the segment between two `&`: a
semicolon anywhere in the segment is an error (the Go code overwrites any
earlier error here); an empty segment is skipped; otherwise the segment is cut
at the first `=`, both halves are unescaped (an escape failure records the
first error and skips the pair), and the pair is appended. -/
def parseSegment (acc : Values × Option String) (seg : List Char) : Values × Option String :=
  if seg.contains ';' then (acc.1, some "invalid semicolon separator in query")
  else if seg = [] then acc
  else
    let kv := cutChar '=' seg
    match queryUnescape kv.1 with
    | none => (acc.1, acc.2.orElse fun _ => some "invalid URL escape")
    | some k =>
      match queryUnescape kv.2 with
      | none => (acc.1, acc.2.orElse fun _ => some "invalid URL escape")
      | some v => (addValue acc.1 k v, acc.2)

/-- `url.ParseQuery`: the collected `url.Values` together with the first error
(Go returns the partially filled map even on error). -/
def parseQueryGo (query : List Char) : Values × Option String :=
  (splitOnChar '&' query).foldl parseSegment ([], none)

/-- `http.Request.ParseForm`'s `copyValues(dst, src)`: append every value of
`src` under its key into `dst`. -/
def copyValues (dst src : Values) : Values :=
  src.foldl (fun acc kv => kv.2.foldl (fun a v => addValue a kv.1 v) acc) dst

/-! ## The inbound request and `ParseForm` -/

/-- The Content-Type media type that makes `ParseForm` read the body. -/
def formCT : List Char := "application/x-www-form-urlencoded".toList

def methodGET : List Char := "GET".toList

def methodPOST : List Char := "POST".toList

/-- The fields of `*http.Request` the handlers read.  `contentType` stands for
the media type of the `Content-Type` header after Go's `mime.ParseMediaType`
(parameters such as `; charset=` stripped), which `parsePostForm` consults;
`requestURI` is the raw request-target (`r.RequestURI`), and the transport
derives `r.URL.RawQuery` from it (everything after the first `?`). -/
structure InboundReq where
  method : List Char
  requestURI : List Char
  contentType : List Char
  body : List Char
  header : Headers
deriving DecidableEq

/-- `r.URL.RawQuery`: the part of the request-target after the first `?`. -/
def rawQueryOf (uri : List Char) : List Char := (cutChar '?' uri).2

/-- `http.parsePostForm`: reads and parses the body as a form only when the
Content-Type media type is `application/x-www-form-urlencoded`; any other
media type leaves the post form empty with no error. -/
def parsePostForm (r : InboundReq) : Values × Option String :=
  if r.contentType = formCT then parseQueryGo r.body else ([], none)

/-- `r.ParseForm()` for a fresh request: `(PostForm, Form, error)`.  The body
form is parsed first (POST only); the URL query is always parsed and merged
into `Form` after the body pairs; a body-parse error takes precedence over a
query-parse error. -/
def ParseFormGo (r : InboundReq) : Values × Values × Option String :=
  let bodyRes := if r.method = methodPOST then parsePostForm r else ([], none)
  let queryRes := parseQueryGo (rawQueryOf r.requestURI)
  (bodyRes.1, copyValues bodyRes.1 queryRes.1, bodyRes.2.orElse fun _ => queryRes.2)

/-! ## `url.Values.Encode` -/

/-- Upper-case hex digit, as `url.escape` emits. -/
def toHexDigit (n : Nat) : Char :=
  if n < 10 then Char.ofNat (48 + n) else Char.ofNat (55 + n)

/-- `url.QueryEscape` on one byte: alphanumerics and `-_.~` are kept, space
becomes `+`, everything else becomes `%XX` (upper-case hex). -/
def queryEscapeChar (c : Char) : List Char :=
  if c = ' ' then ['+']
  else if c.isAlphanum ∨ c = '-' ∨ c = '_' ∨ c = '.' ∨ c = '~' then [c]
  else ['%', toHexDigit (c.toNat / 16), toHexDigit (c.toNat % 16)]

/-- `url.QueryEscape` over a string. -/
def queryEscape (s : List Char) : List Char :=
  s.foldr (fun c acc => queryEscapeChar c ++ acc) []

/-- Go string order (byte-wise lexicographic), used by `sort.Strings` on the
keys inside `url.Values.Encode`. -/
def keyLe : List Char → List Char → Bool
  | [], _ => true
  | _ :: _, [] => false
  | x :: xs, y :: ys =>
    if x.toNat < y.toNat then true
    else if y.toNat < x.toNat then false
    else keyLe xs ys

def insertSorted (kv : List Char × List (List Char)) : Values → Values
  | [] => [kv]
  | x :: xs => if keyLe kv.1 x.1 then kv :: x :: xs else x :: insertSorted kv xs

/-- The key sort performed by `url.Values.Encode`. -/
def sortByKey (vs : Values) : Values := vs.foldr insertSorted []

/-- One `key=value` unit of the encoded output. -/
def encodePair (k v : List Char) : List Char := queryEscape k ++ '=' :: queryEscape v

/-- Join with `&`, as `Encode`'s buffer does between units. -/
def joinAmp : List (List Char) → List Char
  | [] => []
  | [x] => x
  | x :: y :: xs => x ++ '&' :: joinAmp (y :: xs)

/-- `url.Values.Encode()`: keys sorted, each of a key's values emitted in
order as `escape(k)=escape(v)`, units joined by `&`. -/
def encodeValues (vs : Values) : List Char :=
  joinAmp ((sortByKey vs).foldr (fun kv acc => kv.2.map (encodePair kv.1) ++ acc) [])

/-! ## The response writer, outbound requests and `doRequest` -/

/-- The observable state of the `http.ResponseWriter`: the committed status
(`WriteHeader` is effective once), the bytes successfully written, and whether
a body write failed (the handlers only log that). -/
structure RW where
  status : Option Nat
  body : List Char
  writeFailed : Bool
deriving DecidableEq

def RW.init : RW := { status := none, body := [], writeFailed := false }

/-- `w.WriteHeader(code)`: commits the status; a superfluous second call is
ignored by net/http. -/
def writeHeader (w : RW) (code : Nat) : RW :=
  match w.status with
  | some _ => w
  | none => { w with status := some code }

/-- `w.Write(b)`: on success appends the bytes; on failure (client gone) the
caller merely logs, so the writer records the failure and nothing else. -/
def writeBody (ok : Bool) (w : RW) (b : List Char) : RW :=
  if ok then { w with body := w.body ++ b } else { w with writeFailed := true }

/-- The outbound `*http.Request` as `doRequest` builds it: `http.NewRequest`
fills method, URL and body, then `req.Header = headers` replaces the header
set wholesale. -/
structure Request where
  method : List Char
  url : List Char
  header : Headers
  body : Option (List Char)
deriving DecidableEq

/-- The upstream response: its status code, and what reading its body stream
to the end will yield (`ioutil.ReadAll`'s outcome is data of the stream). -/
structure Resp where
  statusCode : Nat
  bodyRead : Except String (List Char)

/-- The ambient HTTP world `doRequest` runs against: whether
`http.NewRequest(method, dest, …)` rejects the method/URL pair, what
`http.DefaultClient.Do` returns for a request, and whether writing the body
back to the original caller succeeds. -/
structure HttpEnv where
  newReqErr : List Char → List Char → Option String
  perform : Request → Except String Resp
  writeOk : Bool

/-- `doRequest` (proxy.go): builds the outbound request (failure → 500),
executes it (failure → 400), reads the whole upstream body (failure → 500),
then relays the upstream status and body; a failed relay write is only
logged.  Also returns the list of outbound requests actually executed. -/
def doRequest (env : HttpEnv) (w : RW) (method dest : List Char) (headers : Headers)
    (requestBody : Option (List Char)) : RW × List Request :=
  match env.newReqErr method dest with
  | some _ => (writeHeader w 500, [])
  | none =>
    match env.perform { method := method, url := dest, header := headers, body := requestBody } with
    | .error _ =>
      (writeHeader w 400, [{ method := method, url := dest, header := headers, body := requestBody }])
    | .ok resp =>
      match resp.bodyRead with
      | .error _ =>
        (writeHeader w 500, [{ method := method, url := dest, header := headers, body := requestBody }])
      | .ok body =>
        (writeBody env.writeOk (writeHeader w resp.statusCode) body,
          [{ method := method, url := dest, header := headers, body := requestBody }])

/-! ## The route handlers -/

/-- `GetHandler` (proxy.go): extract the destination from `r.RequestURI`
(error → 400), reject an empty destination (400), otherwise forward a GET
with the inbound headers and no body. -/
def GetHandler (env : HttpEnv) (r : InboundReq) : RW × List Request :=
  if (extractDest r.requestURI).2.isSome then (writeHeader RW.init 400, [])
  else if (extractDest r.requestURI).1.length = 0 then (writeHeader RW.init 400, [])
  else doRequest env RW.init methodGET (extractDest r.requestURI).1 r.header none

/-- `PostHandler` (proxy.go): `r.ParseForm()` first (error → 400), then the
same destination extraction and emptiness check as GET, then forward a POST
whose body is `r.Form.Encode()` with the inbound headers. -/
def PostHandler (env : HttpEnv) (r : InboundReq) : RW × List Request :=
  if (ParseFormGo r).2.2.isSome then (writeHeader RW.init 400, [])
  else if (extractDest r.requestURI).2.isSome then (writeHeader RW.init 400, [])
  else if (extractDest r.requestURI).1.length = 0 then (writeHeader RW.init 400, [])
  else
    doRequest env RW.init methodPOST (extractDest r.requestURI).1 r.header
      (some (encodeValues (ParseFormGo r).2.1))

/-! ## Server lifecycle and the crash-signal channel -/

/-- The lifecycle state of a `ProxyServer` value: `serverStarted` models
`c.server != nil`. -/
structure ProxyLifecycle where
  serverStarted : Bool
deriving DecidableEq

/-- `NewProxyServer` leaves `c.server` nil. -/
def newProxyLifecycle : ProxyLifecycle := { serverStarted := false }

/-- `ProxyServer.Start`: fails when `c.server != nil`, otherwise installs the
server and returns nil (the listening goroutine and its channel are modelled
separately by `listenerExitSend`). -/
def ProxyLifecycle.start (c : ProxyLifecycle) : Except String ProxyLifecycle :=
  if c.serverStarted then Except.error "rest server already started"
  else Except.ok { serverStarted := true }

/-- `ProxyServer.Shutdown`: fails when `c.server == nil`; otherwise attempts
the graceful shutdown (its success or timeout failure is only logged — the
`Bool` argument carries that outcome and changes nothing else),
unconditionally clears `c.server`, and returns nil. -/
def ProxyLifecycle.shutdown (c : ProxyLifecycle) (_gracefulOk : Bool) :
    Except String ProxyLifecycle :=
  if c.serverStarted = false then Except.error "proxy server not started"
  else Except.ok { serverStarted := false }

/-- A Go channel's state, as far as the completion of a single send is
concerned. -/
structure GoChan where
  capacity : Nat
  buffered : Nat
  receiverWaiting : Bool

/-- The two shapes a channel send can take in Go source. -/
inductive SendKind where
  | blocking
  | nonBlockingTry
deriving DecidableEq

/-- Whether one send completes without blocking: a plain `ch <- v` completes
now only when a receiver is waiting or buffer space is free; a
`select { case ch <- v: default: }` always completes now. -/
def sendCompletesNow (k : SendKind) (ch : GoChan) : Bool :=
  match k with
  | .blocking => ch.receiverWaiting || decide (ch.buffered < ch.capacity)
  | .nonBlockingTry => true

/-- The listening goroutine's exit path (proxy.go):
`if err := c.server.ListenAndServe(); err != nil { …; if sigChan != nil { sigChan <- true } }`
— when the signal channel is non-nil, the send performed is a plain blocking
send. -/
def listenerExitSend (sigChanNonNil : Bool) : Option SendKind :=
  if sigChanNonNil then some SendKind.blocking else none

/-- `main.go` creates the crash channel as `make(chan bool, 1)`. -/
def resetServerChanCap : Nat := 1

/-! ## Concrete fixtures used by witnesses and counterexamples -/

/-- A stub upstream that accepts any outbound request and answers status 201
with body `"hi"`; body writes back to the caller succeed. -/
def stub201 : HttpEnv :=
  { newReqErr := fun _ _ => none
  , perform := fun _ => Except.ok { statusCode := 201, bodyRead := Except.ok "hi".toList }
  , writeOk := true }

def destOk : List Char := "http://example.test/ok".toList

/-- A request whose path is exactly the bare marker, so the extracted
destination is empty. -/
def reqEmptyDest : InboundReq :=
  { method := methodPOST, requestURI := proxyPre, contentType := formCT
  , body := [], header := [] }

/-- A well-formed POST whose form body is `b=2&a=1` (re-encoding normalizes
the key order). -/
def reqPostDemo : InboundReq :=
  { method := methodPOST, requestURI := "/proxy/http://example.test/ok".toList
  , contentType := formCT, body := "b=2&a=1".toList
  , header := [("X-Demo".toList, ["v".toList])] }

/-- The parsed form of `reqPostDemo` (body pairs in parse order, no query). -/
def formDemo : Values := [("b".toList, ["2".toList]), ("a".toList, ["1".toList])]

/-- A POST whose embedded destination URL carries the query `x=9`. -/
def reqPostQuery : InboundReq :=
  { method := methodPOST, requestURI := "/proxy/http://example.test/ok?x=9".toList
  , contentType := formCT, body := "a=1".toList, header := [] }

def destQuery : List Char := "http://example.test/ok?x=9".toList

/-- Body form of `reqPostQuery`. -/
def formA : Values := [("a".toList, ["1".toList])]

/-- Query form of `reqPostQuery`. -/
def formX : Values := [("x".toList, ["9".toList])]

/-- A POST whose body `%zz` is not valid URL-encoded form data but whose
Content-Type is `text/plain`, so `ParseForm` never parses the body. -/
def reqTextPlain : InboundReq :=
  { method := methodPOST, requestURI := "/proxy/http://example.test/ok".toList
  , contentType := "text/plain".toList, body := "%zz".toList, header := [] }

/-- A POST declaring the form media type whose body `%zz` fails to parse, on
an invalid path. -/
def reqBadForm : InboundReq :=
  { method := methodPOST, requestURI := "/nope".toList
  , contentType := formCT, body := "%zz".toList, header := [] }

/-! ### Lemmas about the string primitives -/

theorem isPrefixOf_self_append (p s : List Char) : p.isPrefixOf (p ++ s) = true := by
  induction p with
  | nil => simp [List.isPrefixOf]
  | cons c cs ih => simp [List.isPrefixOf, ih]

theorem firstOccur_self_append (p s : List Char) (hp : p ≠ []) :
    firstOccur p (p ++ s) = some 0 := by
  cases p with
  | nil => exact absurd rfl hp
  | cons c cs =>
    have h := isPrefixOf_self_append (c :: cs) s
    rw [List.cons_append] at h
    show firstOccur (c :: cs) (c :: (cs ++ s)) = some 0
    rw [firstOccur, h]
    simp

theorem replaceFirst_self_append (p s : List Char) (hp : p ≠ []) :
    replaceFirst (p ++ s) p [] = s := by
  cases p with
  | nil => exact absurd rfl hp
  | cons c cs =>
    have h := isPrefixOf_self_append (c :: cs) s
    rw [List.cons_append] at h
    show replaceFirst (c :: (cs ++ s)) (c :: cs) [] = s
    rw [replaceFirst, h]
    simp [List.drop_left]

theorem firstOccur_eq_some_zero_iff (sub s : List Char) :
    firstOccur sub s = some 0 ↔ sub.isPrefixOf s = true := by
  cases s with
  | nil =>
    cases sub with
    | nil => decide
    | cons c cs => simp [firstOccur, List.isPrefixOf]
  | cons c rest =>
    by_cases h : sub.isPrefixOf (c :: rest) = true
    · rw [firstOccur, if_pos h, h]
      simp
    · rw [firstOccur, if_neg h]
      constructor
      · intro hmap
        cases hf : firstOccur sub rest with
        | none => rw [hf] at hmap; simp at hmap
        | some n => rw [hf] at hmap; simp at hmap
      · intro hfalse
        exact absurd hfalse h

/-- C1: For every string `s`, `extractDest("/proxy/" + s)` succeeds and returns
exactly `s`: the literal `"/proxy/"` is removed exactly once and the remainder
is passed through verbatim, with no decoding or further substitution, even when
`s` itself contains further occurrences of `"/proxy/"`. -/
theorem extractDest_roundtrip (s : List Char) :
    extractDest (proxyPre ++ s) = (s, none) := by
  have hne : proxyPre ≠ [] := by decide
  unfold extractDest goIndex
  rw [firstOccur_self_append proxyPre s hne]
  simp [replaceFirst_self_append proxyPre s hne]

/-- C2: For every path `p` that does not start with the literal `"/proxy/"`,
`extractDest p` fails with the "unknown path" error and an empty destination. -/
theorem extractDest_unknown (p : List Char) (h : proxyPre.isPrefixOf p = false) :
    extractDest p = ([], some "unknown path") := by
  unfold extractDest goIndex
  cases hf : firstOccur proxyPre p with
  | none => simp
  | some n =>
    have hn : n ≠ 0 := by
      intro h0
      subst h0
      rw [firstOccur_eq_some_zero_iff] at hf
      rw [hf] at h
      cases h
    have : ((n : Int) ≠ 0) := by exact_mod_cast hn
    simp [this]

/-- Witness for C2 at the concrete non-proxy path `"/other/x"`. -/
theorem extractDest_unknown_witness :
    proxyPre.isPrefixOf ("/other/x".toList) = false
      ∧ extractDest ("/other/x".toList) = ([], some "unknown path") :=
  ⟨by decide, extractDest_unknown ("/other/x".toList) (by decide)⟩

/-! ### Handler lemmas -/

theorem writeHeader_init (n : Nat) :
    writeHeader RW.init n = { status := some n, body := [], writeFailed := false } := rfl

/-- Every outbound request `doRequest` actually executes carries exactly the
caller-supplied headers and body. -/
theorem doRequest_calls (env : HttpEnv) (w : RW) (m d : List Char) (hs : Headers)
    (rb : Option (List Char)) :
    ∀ req ∈ (doRequest env w m d hs rb).2, req.header = hs ∧ req.body = rb := by
  unfold doRequest
  split
  · simp
  · split
    · simp
    · split
      · simp
      · simp

/-- The POST handler on a request whose form parses and whose destination
extracts non-empty: it reduces to the forwarding call with the re-encoded
form as body. -/
theorem postHandler_success_eq (env : HttpEnv) (r : InboundReq)
    (pf form : Values) (dest : List Char)
    (hp : ParseFormGo r = (pf, form, none))
    (hd : extractDest r.requestURI = (dest, none))
    (hne : dest ≠ []) :
    PostHandler env r =
      doRequest env RW.init methodPOST dest r.header (some (encodeValues form)) := by
  unfold PostHandler
  rw [hp, hd]
  have hlen : dest.length ≠ 0 := by
    simpa using hne
  simp [hlen]

/-- C3: `extractDest "/proxy/"` succeeds with the empty destination, and any
request whose extracted destination is empty is answered 400 by both the GET
and the POST handler, with no outbound forwarding call. -/
theorem empty_dest_rejected (env : HttpEnv) (r : InboundReq)
    (h : extractDest r.requestURI = ([], none)) :
    extractDest proxyPre = ([], none)
  ∧ GetHandler env r = ({ status := some 400, body := [], writeFailed := false }, [])
  ∧ PostHandler env r = ({ status := some 400, body := [], writeFailed := false }, []) := by
  refine ⟨by decide, ?_, ?_⟩
  · unfold GetHandler
    rw [h]
    simp [writeHeader_init]
  · unfold PostHandler
    cases hpf : (ParseFormGo r).2.2 with
    | some e => simp [writeHeader_init]
    | none =>
      rw [h]
      simp [writeHeader_init]

/-- Witness for C3: the bare path `"/proxy/"`. -/
theorem empty_dest_rejected_witness :
    extractDest proxyPre = ([], none)
  ∧ GetHandler stub201 reqEmptyDest = ({ status := some 400, body := [], writeFailed := false }, [])
  ∧ PostHandler stub201 reqEmptyDest = ({ status := some 400, body := [], writeFailed := false }, []) :=
  empty_dest_rejected stub201 reqEmptyDest (by decide)

/-- C4: for every forwarded request, the status written back is exactly:
500 on outbound construction failure, 400 on execution/network failure,
500 on a body-read failure after headers, and otherwise the upstream's own
status code unchanged. -/
theorem doRequest_status (env : HttpEnv) (m d : List Char) (hs : Headers)
    (rb : Option (List Char)) :
    (doRequest env RW.init m d hs rb).1.status =
      some (match env.newReqErr m d with
        | some _ => 500
        | none =>
          match env.perform { method := m, url := d, header := hs, body := rb } with
          | Except.error _ => 400
          | Except.ok resp =>
            match resp.bodyRead with
            | Except.error _ => 500
            | Except.ok _ => resp.statusCode) := by
  unfold doRequest
  cases env.newReqErr m d with
  | some e => rfl
  | none =>
    dsimp only
    cases env.perform { method := m, url := d, header := hs, body := rb } with
    | error e => rfl
    | ok resp =>
      dsimp only
      cases resp.bodyRead with
      | error e => rfl
      | ok b =>
        cases hw : env.writeOk <;> simp [writeBody, writeHeader, RW.init, hw]

/-- C5: on a successful round trip the relay commits the upstream status
first and then writes the upstream body bytes unmodified; if the body write
to the caller fails, the failure is swallowed and the committed status is
unchanged. -/
theorem relay_success (env : HttpEnv) (m d : List Char) (hs : Headers)
    (rb : Option (List Char)) (resp : Resp) (b : List Char)
    (h0 : env.newReqErr m d = none)
    (h1 : env.perform { method := m, url := d, header := hs, body := rb } = Except.ok resp)
    (h2 : resp.bodyRead = Except.ok b) :
    doRequest env RW.init m d hs rb =
      (if env.writeOk
        then ({ status := some resp.statusCode, body := b, writeFailed := false },
              [{ method := m, url := d, header := hs, body := rb }])
        else ({ status := some resp.statusCode, body := [], writeFailed := true },
              [{ method := m, url := d, header := hs, body := rb }])) := by
  unfold doRequest
  cases hw : env.writeOk <;>
    simp [h0, h1, h2, hw, writeBody, writeHeader, RW.init]

/-- Witness for C5: the stub upstream answering 201 `"hi"` is relayed as
status 201 with body `"hi"`. -/
theorem relay_success_witness :
    doRequest stub201 RW.init methodGET destOk [] none =
      ({ status := some 201, body := "hi".toList, writeFailed := false },
       [{ method := methodGET, url := destOk, header := [], body := none }]) := by
  have h := relay_success stub201 methodGET destOk [] none
      { statusCode := 201, bodyRead := Except.ok "hi".toList } "hi".toList rfl rfl rfl
  simpa [stub201] using h

/-- C6: every POST that passes form parsing and destination extraction is
forwarded with the URL-encoded re-encoding of the parsed form as outbound
body — not the raw inbound body — and with the inbound headers attached
unmodified. -/
theorem post_forwards_reencoded_form (env : HttpEnv) (r : InboundReq)
    (pf form : Values) (dest : List Char)
    (hp : ParseFormGo r = (pf, form, none))
    (hd : extractDest r.requestURI = (dest, none))
    (hne : dest ≠ []) :
    PostHandler env r =
      doRequest env RW.init methodPOST dest r.header (some (encodeValues form))
  ∧ ∀ req ∈ (PostHandler env r).2,
      req.body = some (encodeValues form) ∧ req.header = r.header := by
  have h1 := postHandler_success_eq env r pf form dest hp hd hne
  refine ⟨h1, ?_⟩
  rw [h1]
  intro req hmem
  have h2 := doRequest_calls env RW.init methodPOST dest r.header
      (some (encodeValues form)) req hmem
  exact ⟨h2.2, h2.1⟩

/-- Witness for C6: form body `b=2&a=1` is re-encoded (keys normalized) and
differs from the raw inbound bytes. -/
theorem post_forwards_reencoded_form_witness :
    PostHandler stub201 reqPostDemo =
      doRequest stub201 RW.init methodPOST destOk reqPostDemo.header
        (some (encodeValues formDemo))
  ∧ encodeValues formDemo ≠ reqPostDemo.body :=
  ⟨(post_forwards_reencoded_form stub201 reqPostDemo formDemo formDemo destOk
      (by decide) (by decide) (by decide)).1, by decide⟩

/-- Counterexample to C7 as stated: a POST whose body `%zz` is not valid
URL-encoded form data but whose Content-Type is `text/plain` is not answered
400 — `ParseForm` skips the body for non-form media types, so the request is
forwarded and the upstream status 201 is relayed. -/
theorem post_invalid_body_not_always_400 :
    (parseQueryGo reqTextPlain.body).2.isSome = true
  ∧ reqTextPlain.method = methodPOST
  ∧ (PostHandler stub201 reqTextPlain).1.status = some 201
  ∧ (PostHandler stub201 reqTextPlain).2 ≠ [] := by
  decide

/-- C7 (amended): every POST declaring Content-Type
`application/x-www-form-urlencoded` whose body is not valid URL-encoded form
data is answered 400 immediately with no outbound call; parsing precedes
destination extraction, so this holds even when the path is invalid (no
hypothesis on the path is needed). -/
theorem post_form_parse_failure_400 (env : HttpEnv) (r : InboundReq)
    (hm : r.method = methodPOST) (hct : r.contentType = formCT)
    (hb : (parseQueryGo r.body).2.isSome = true) :
    PostHandler env r = ({ status := some 400, body := [], writeFailed := false }, []) := by
  have h1 : (ParseFormGo r).2.2.isSome = true := by
    unfold ParseFormGo parsePostForm
    rw [hm, hct]
    cases ho : (parseQueryGo r.body).2 with
    | none => rw [ho] at hb; simp at hb
    | some e => simp [ho, Option.orElse]
  unfold PostHandler
  rw [h1]
  simp [writeHeader_init]

/-- Witness for C7 (amended): body `%zz` with the form media type on an
invalid path still yields 400 with no outbound call. -/
theorem post_form_parse_failure_400_witness :
    PostHandler stub201 reqBadForm = ({ status := some 400, body := [], writeFailed := false }, []) :=
  post_form_parse_failure_400 stub201 reqBadForm rfl rfl (by decide)

/-- C8: the lifecycle is a two-state machine on the handle: `Start` fails
exactly when running, `Shutdown` fails exactly when stopped, `Shutdown` from
the running state clears the handle whatever the graceful-shutdown outcome
`g`, and a subsequent `Start` then succeeds. -/
theorem lifecycle_two_state (g : Bool) :
    ProxyLifecycle.start { serverStarted := true } = Except.error "rest server already started"
  ∧ ProxyLifecycle.start { serverStarted := false } = Except.ok { serverStarted := true }
  ∧ ProxyLifecycle.shutdown { serverStarted := false } g = Except.error "proxy server not started"
  ∧ ProxyLifecycle.shutdown { serverStarted := true } g = Except.ok { serverStarted := false }
  ∧ (ProxyLifecycle.shutdown { serverStarted := true } g).bind ProxyLifecycle.start
      = Except.ok { serverStarted := true } :=
  ⟨rfl, rfl, rfl, rfl, rfl⟩

/-- Counterexample to C9 as stated: the listener-exit path performs a plain
blocking send, and on an unbuffered channel with no waiting receiver that
send does not complete — it blocks the lifecycle task. -/
theorem crash_signal_blocking_counterexample :
    listenerExitSend true = some SendKind.blocking
  ∧ sendCompletesNow SendKind.blocking
      { capacity := 0, buffered := 0, receiverWaiting := false } = false :=
  ⟨rfl, rfl⟩

/-- C9 (amended): when the listening task terminates with an error and the
channel is non-nil, a signal is sent, but via a plain blocking send: it
completes without blocking exactly when a receiver is waiting or buffer space
is free — not unconditionally.  The owner in `main.go` passes a channel of
capacity 1, whose first unobserved send does complete. -/
theorem crash_signal_send_characterization (ch : GoChan) :
    listenerExitSend true = some SendKind.blocking
  ∧ listenerExitSend false = none
  ∧ (sendCompletesNow SendKind.blocking ch = true
      ↔ (ch.receiverWaiting = true ∨ ch.buffered < ch.capacity))
  ∧ sendCompletesNow SendKind.blocking
      { capacity := resetServerChanCap, buffered := 0, receiverWaiting := false } = true := by
  refine ⟨rfl, rfl, ?_, rfl⟩
  simp [sendCompletesNow]

/-- C10: the forwarded POST body encodes the merged form `r.Form`: the body
form pairs plus the query pairs parsed from the request target, so a query
string on the destination URL embedded in the path contributes key/value
pairs to the outbound body. -/
theorem post_body_includes_query (env : HttpEnv) (r : InboundReq)
    (pf qv : Values) (dest : List Char)
    (hm : r.method = methodPOST)
    (hpf : parsePostForm r = (pf, none))
    (hq : parseQueryGo (rawQueryOf r.requestURI) = (qv, none))
    (hd : extractDest r.requestURI = (dest, none))
    (hne : dest ≠ []) :
    PostHandler env r =
      doRequest env RW.init methodPOST dest r.header
        (some (encodeValues (copyValues pf qv))) := by
  have hp : ParseFormGo r = (pf, copyValues pf qv, none) := by
    unfold ParseFormGo
    rw [hm, hpf, hq]
    simp
  exact postHandler_success_eq env r pf (copyValues pf qv) dest hp hd hne

/-- Witness for C10: destination `http://example.test/ok?x=9` with body
`a=1` forwards the merged encoding `a=1&x=9`. -/
theorem post_body_includes_query_witness :
    PostHandler stub201 reqPostQuery =
      doRequest stub201 RW.init methodPOST destQuery reqPostQuery.header
        (some (encodeValues (copyValues formA formX)))
  ∧ encodeValues (copyValues formA formX) = "a=1&x=9".toList :=
  ⟨post_body_includes_query stub201 reqPostQuery formA formX destQuery
      (by decide) (by decide) (by decide) (by decide) (by decide), by decide⟩

end Parserhhub
